import Mathlib

/-!
Verification of the Quiz Battle multi-player game (`script.js`).

The development shallowly embeds the game logic: the question store
(loading, validation, fallback), the difficulty filter, the Fisher-Yates
shuffle, and the session state machine (players, scores, turn and
question pointers, the per-question countdown timer) driven by UI events.
DOM rendering is modelled only through its state effects (the inline
setup message, the timer bookkeeping).
-/

set_option maxHeartbeats 1000000

namespace QuizBattle

/-- A quiz question as stored in `backupQuestions`: fields `questionItem`,
`options`, `answer`, and an optional `difficulty` tag. -/
structure Question where
  questionItem : String
  options : List String
  answer : String
  difficulty : Option String
deriving DecidableEq, Repr

/-- A raw fetched JSON entry, before validation. Each field is `some`
exactly when the property is present with the dynamic type the validator
checks for (`typeof x === "string"` for `questionItem`/`answer`,
`Array.isArray` for `options`); `difficulty` carries the string value of
that property when it is a string, `none` when absent. -/
structure RawQuestion where
  questionItem : Option String
  options : Option (List String)
  answer : Option String
  difficulty : Option String
deriving DecidableEq, Repr

/-- One entry of `validateQuestions`: the check
`typeof q.questionItem === "string" && Array.isArray(q.options) &&
typeof q.answer === "string"` on a single entry. -/
def validQuestion (q : RawQuestion) : Bool :=
  q.questionItem.isSome && q.options.isSome && q.answer.isSome

/-- `validateQuestions` walks the whole array and throws on the first
malformed entry; the observable outcome in `loadQuestions` is only
throw-or-not, modelled as this `Bool`. -/
def validateQuestions (data : List RawQuestion) : Bool :=
  data.all validQuestion

/-- JavaScript falsiness of the `difficulty` field as used in
`questionItem.difficulty || undefined` and `!questionItem.difficulty`:
the field is absent (`undefined`) or the empty string. -/
def falsyDifficulty : Option String → Bool
  | none => true
  | some s => s = ""

/-- The per-entry mapping in `loadQuestions`:
`{ ...questionItem, difficulty: questionItem.difficulty || undefined }`.
The `getD` defaults are only reached on entries that failed validation,
which `loadQuestions` never maps. -/
def mapLoadedQuestion (q : RawQuestion) : Question where
  questionItem := q.questionItem.getD ""
  options := q.options.getD []
  answer := q.answer.getD ""
  difficulty := if falsyDifficulty q.difficulty then none else q.difficulty

/-- Outcome of `fetch` + `response.json()` for one URL of
`QUESTIONS_SOURCES`. -/
inductive FetchOutcome where
  /-- Network error, non-ok status, or JSON parse failure. -/
  | fail
  /-- The response parsed, but `Array.isArray(data)` is false. -/
  | nonArray
  /-- The response parsed to a JSON array of entries. -/
  | array (data : List RawQuestion)

/-- `loadQuestions`: try each source in order; a nonempty array that
validates replaces the question store (after the per-entry mapping); any
failure, non-array, empty array, or validation throw falls through to the
next source, and after all sources the built-in fallback is kept. -/
def loadQuestions (outcomes : List FetchOutcome) (fallback : List Question) :
    List Question :=
  match outcomes with
  | [] => fallback
  | o :: rest =>
    match o with
    | .fail => loadQuestions rest fallback
    | .nonArray => loadQuestions rest fallback
    | .array data =>
      if data.isEmpty then loadQuestions rest fallback
      else if validateQuestions data then data.map mapLoadedQuestion
      else loadQuestions rest fallback

/-- The built-in fallback question set (`backupQuestions` initial value). -/
def builtinBackupQuestions : List Question :=
  [ { questionItem := "Which organization manages hydropower projects in Bhutan?"
      options := ["Druk Green Power Corporation", "Bhutan Power Corporation",
                  "Hydro Bhutan", "Royal Energy Agency"]
      answer := "Druk Green Power Corporation"
      difficulty := some "easy" },
    { questionItem := "Which Bhutanese festival involves mask dances and blessings?"
      options := ["Tshechu", "Losar", "Thruebab", "Neykor"]
      answer := "Tshechu"
      difficulty := some "easy" },
    { questionItem := "Which Bhutanese king abdicated in favor of his son in 2006?"
      options := ["Jigme Singye Wangchuck", "Jigme Dorji Wangchuck",
                  "Ugyen Wangchuck", "Jigme Khesar Namgyel Wangchuck"]
      answer := "Jigme Singye Wangchuck"
      difficulty := some "easy" },
    { questionItem := "Which Bhutanese policy restricts the number of tourists annually?"
      options := ["High Value, Low Volume Tourism", "Free Tourism",
                  "Visa-Free Policy", "Mass Tourism"]
      answer := "High Value, Low Volume Tourism"
      difficulty := some "hard" },
    { questionItem := "Which year did Bhutan first hold democratic elections?"
      options := ["2008", "2005", "2010", "2013"]
      answer := "2008"
      difficulty := some "hard" } ]

/-- Predicate of the easy-mode filter in `applyDifficultyFilter`:
`!questionItem.difficulty || questionItem.difficulty === "easy"`. -/
def easyQuestion (q : Question) : Bool :=
  falsyDifficulty q.difficulty || q.difficulty == some "easy"

/-- Predicate of the hard-mode filter:
`questionItem.difficulty === "hard"`. -/
def hardQuestion (q : Question) : Bool :=
  q.difficulty == some "hard"

/-- Pool selection of `applyDifficultyFilter`: easy keeps easy-or-untagged
questions; hard keeps hard-tagged questions, falling back to the whole
set when none is tagged hard; an empty pool falls back to the whole set. -/
def filterPool (chosenDifficulty : String) (qs : List Question) :
    List Question :=
  let pool :=
    if chosenDifficulty = "easy" then qs.filter easyQuestion
    else
      let hardOnly := qs.filter hardQuestion
      if hardOnly.isEmpty then qs else hardOnly
  if pool.isEmpty then qs else pool

/-- One iteration body of `shuffleArray`:
`[arr[i], arr[j]] = [arr[j], arr[i]]`. Out-of-range indices (which the
loop never produces) leave the list unchanged. -/
def listSwap (l : List α) (i j : Nat) : List α :=
  match l[i]?, l[j]? with
  | some a, some b => (l.set i b).set j a
  | _, _ => l

/-- The loop of `shuffleArray`, counting `i` down from `arr.length - 1`
while `i > 0`. The draw `Math.floor(Math.random() * (i + 1))` is an
arbitrary value in `[0, i]`, represented as `c i % (i + 1)` for an
arbitrary choice function `c`; every valid draw is realised by some `c`. -/
def shuffleAux (c : Nat → Nat) (l : List α) : Nat → List α
  | 0 => l
  | i + 1 => shuffleAux c (listSwap l (i + 1) (c (i + 1) % (i + 2))) i

/-- `shuffleArray`: in-place Fisher-Yates shuffle, modelled functionally. -/
def shuffleArray (c : Nat → Nat) (l : List α) : List α :=
  shuffleAux c l (l.length - 1)

theorem cons_set_perm (x : α) :
    ∀ (xs : List α) (k : Nat) (hk : k < xs.length),
      (xs.get ⟨k, hk⟩ :: xs.set k x).Perm (x :: xs)
  | y :: ys, 0, _ => List.Perm.swap x y ys
  | y :: ys, k + 1, hk => by
    have ih := cons_set_perm x ys k (by simpa using hk)
    simpa using
      ((List.Perm.swap y (ys.get ⟨k, by simpa using hk⟩) (ys.set k x)).trans
        ((ih).cons y)).trans (List.Perm.swap x y ys)

theorem set_set_swap_perm_le :
    ∀ (l : List α) (i j : Nat) (hi : i < l.length) (hj : j < l.length),
      i ≤ j → ((l.set i (l.get ⟨j, hj⟩)).set j (l.get ⟨i, hi⟩)).Perm l
  | x :: xs, 0, 0, _, _, _ => by simp
  | x :: xs, 0, j + 1, hi, hj, _ => by
    have h : j < xs.length := by simpa using hj
    simpa using cons_set_perm x xs j h
  | x :: xs, i + 1, 0, _, _, h => by omega
  | x :: xs, i + 1, j + 1, hi, hj, h => by
    have ih := set_set_swap_perm_le xs i j (by simpa using hi)
      (by simpa using hj) (by omega)
    simpa using ih.cons x

theorem set_set_swap_perm (l : List α) (i j : Nat)
    (hi : i < l.length) (hj : j < l.length) :
    ((l.set i (l.get ⟨j, hj⟩)).set j (l.get ⟨i, hi⟩)).Perm l := by
  by_cases hij : i ≤ j
  · exact set_set_swap_perm_le l i j hi hj hij
  · rw [List.set_comm _ _ _ (by omega : i ≠ j)]
    exact set_set_swap_perm_le l j i hj hi (by omega)

theorem listSwap_perm (l : List α) (i j : Nat) : (listSwap l i j).Perm l := by
  unfold listSwap
  split
  · next a b ha hb =>
    obtain ⟨hi, ha⟩ := List.getElem?_eq_some_iff.1 ha
    obtain ⟨hj, hb⟩ := List.getElem?_eq_some_iff.1 hb
    subst ha hb
    exact set_set_swap_perm l i j hi hj
  · exact List.Perm.refl l

theorem shuffleAux_perm (c : Nat → Nat) :
    ∀ (n : Nat) (l : List α), (shuffleAux c l n).Perm l
  | 0, l => List.Perm.refl l
  | n + 1, l =>
    (shuffleAux_perm c n _).trans (listSwap_perm l (n + 1) (c (n + 1) % (n + 2)))

theorem shuffleArray_perm (c : Nat → Nat) (l : List α) :
    (shuffleArray c l).Perm l :=
  shuffleAux_perm c (l.length - 1) l

/-- Claim C6: for every array of questions and every sequence of random
choices, the Fisher-Yates shuffle produces a permutation of its input:
the multiset of questions after shuffling equals the multiset before. -/
theorem shuffleArray_is_permutation (c : Nat → Nat) (l : List Question) :
    ((shuffleArray c l : List Question) : Multiset Question) = (l : Multiset Question) :=
  Multiset.coe_eq_coe.2 (shuffleArray_perm c l)

/-- Claim C4: if any fetched entry lacks a string prompt, a string answer,
or an options array, the whole fetched set is rejected and the question
store keeps the fallback set; no subset of the fetched entries is kept. -/
theorem loadQuestions_rejects_invalid (data : List RawQuestion)
    (fallback : List Question) (h : ∃ q ∈ data, validQuestion q = false) :
    loadQuestions [.array data] fallback = fallback := by
  obtain ⟨q, hq, hv⟩ := h
  have hne : data.isEmpty = false := by
    cases data with
    | nil => cases hq
    | cons a as => rfl
  have hval : validateQuestions data = false := by
    unfold validateQuestions
    rw [List.all_eq_false]
    exact ⟨q, hq, by simp [hv]⟩
  simp [loadQuestions, hne, hval]

/-- A malformed fetched entry: `answer` is missing. -/
def badRawQuestion : RawQuestion where
  questionItem := some "Which year did Bhutan first hold democratic elections?"
  options := some ["2008", "2005", "2010", "2013"]
  answer := none
  difficulty := some "hard"

theorem loadQuestions_rejects_invalid_witness :
    (∃ q ∈ [badRawQuestion], validQuestion q = false) ∧
      loadQuestions [.array [badRawQuestion]] builtinBackupQuestions =
        builtinBackupQuestions :=
  ⟨⟨badRawQuestion, by decide⟩,
    loadQuestions_rejects_invalid [badRawQuestion] builtinBackupQuestions
      ⟨badRawQuestion, by decide⟩⟩

/-- Claim C10: a fetched response that parses to a well-formed but empty
JSON array does not replace the question set; the built-in fallback
questions remain in use. -/
theorem loadQuestions_empty_array_keeps_fallback (fallback : List Question) :
    loadQuestions [.array []] fallback = fallback := rfl

/-- Claim C5: for every question list, the easy filter returns exactly the
questions tagged easy or untagged, the hard filter returns exactly the
questions tagged hard (or the full list when none is tagged hard), an
empty filtered result falls back to the full list, and the result is
never empty when the input is nonempty. -/
theorem filterPool_spec (qs : List Question) :
    (filterPool "easy" qs =
      if (qs.filter easyQuestion).isEmpty then qs else qs.filter easyQuestion) ∧
    (filterPool "hard" qs =
      if (qs.filter hardQuestion).isEmpty then qs else qs.filter hardQuestion) ∧
    (∀ d : String, qs ≠ [] → filterPool d qs ≠ []) := by
  refine ⟨by simp [filterPool], ?_, ?_⟩
  · by_cases h : (qs.filter hardQuestion).isEmpty
    · simp [filterPool, h]
    · simp [filterPool, h]
  · intro d hqs
    have key : ∀ pool : List Question,
        (if pool.isEmpty then qs else pool) ≠ [] := by
      intro pool
      by_cases hp : pool.isEmpty
      · simpa [hp] using hqs
      · have hne : pool ≠ [] := by simpa [List.isEmpty_iff] using hp
        simpa [hp] using hne
    exact key _

/-- A concrete question used in witnesses. -/
def exampleQuestion : Question where
  questionItem := "Which year did Bhutan first hold democratic elections?"
  options := ["2008", "2005", "2010", "2013"]
  answer := "2008"
  difficulty := some "hard"

theorem filterPool_spec_witness :
    ([exampleQuestion] : List Question) ≠ [] ∧
      filterPool "hard" [exampleQuestion] ≠ [] :=
  ⟨by decide, (filterPool_spec [exampleQuestion]).2.2 "hard" (by decide)⟩

/-! ## Session state machine -/

/-- The UI sections switched by `setSection`. -/
inductive Phase where
  | setupNames
  | setupDifficulty
  | playing
  | results
deriving DecidableEq, Repr

/-- One entry of `answersLog`, pushed by `onAnswer`. -/
structure LogEntry where
  playerIndex : Nat
  playerName : String
  questionNumber : Nat
  question : String
  options : List String
  selectedAnswer : String
  correctAnswer : String
  isCorrect : Bool
deriving DecidableEq, Repr

/-- The module-level mutable state of `script.js`, together with the state
effects of the DOM and of the interval timer: `setupMsg` is the `setMsg`
text, `phase` the visible section, `timerLive` the number of live
intervals created by `setInterval` and not yet cleared, `timerId` whether
`questionTimerId` is non-null, and `questionTimeLeft` the countdown. -/
structure GameState where
  playerNames : List String
  scores : List Nat
  currentPlayer : Nat
  currentQuestion : Nat
  backupQuestions : List Question
  chosenDifficulty : String
  playerIndexCounter : Nat
  answersLog : List LogEntry
  setupMsg : String
  phase : Phase
  timerLive : Nat
  timerId : Bool
  questionTimeLeft : Nat
deriving DecidableEq, Repr

def EASY_MODE_TIMER_SECONDS : Nat := 10

def HARD_MODE_TIMER_SECONDS : Nat := 15

/-- The state after `DOMContentLoaded` ran `loadQuestions` (whose result
is the `qs` parameter) and showed the `setup-names` section. -/
def initState (qs : List Question) : GameState where
  playerNames := []
  scores := []
  currentPlayer := 0
  currentQuestion := 0
  backupQuestions := qs
  chosenDifficulty := "easy"
  playerIndexCounter := 1
  answersLog := []
  setupMsg := ""
  phase := .setupNames
  timerLive := 0
  timerId := false
  questionTimeLeft := 0

/-- `clearTimer`: clear the interval only when `questionTimerId` is set. -/
def clearTimer (s : GameState) : GameState :=
  if s.timerId then { s with timerLive := s.timerLive - 1, timerId := false }
  else s

/-- `startTimer(totalSeconds)`: reset the countdown and register a new
interval. -/
def startTimer (totalSeconds : Nat) (s : GameState) : GameState :=
  { s with
    questionTimeLeft := totalSeconds
    timerLive := s.timerLive + 1
    timerId := true }

/-- `endGame`: stop the timer and switch to the results section. -/
def endGame (s : GameState) : GameState :=
  let s := clearTimer s
  { s with phase := .results }

/-- `renderQuestion`: past the last question it ends the game; otherwise
it redraws the question (no state effect), clears any previous timer and
starts a fresh one with the difficulty-tier duration. -/
def renderQuestion (s : GameState) : GameState :=
  if s.backupQuestions.length ≤ s.currentQuestion then endGame s
  else
    let s := clearTimer s
    let secondsForThisQuestion :=
      if s.chosenDifficulty = "hard" then HARD_MODE_TIMER_SECONDS
      else EASY_MODE_TIMER_SECONDS
    startTimer secondsForThisQuestion s

/-- `nextTurn`: advance the player index, wrapping to the next question;
past the last question end the game, otherwise render the next turn. -/
def nextTurn (s : GameState) : GameState :=
  let cp := s.currentPlayer + 1
  let s :=
    if s.playerNames.length ≤ cp then
      { s with currentPlayer := 0, currentQuestion := s.currentQuestion + 1 }
    else { s with currentPlayer := cp }
  if s.backupQuestions.length ≤ s.currentQuestion then endGame s
  else renderQuestion s

def defaultQuestion : Question where
  questionItem := ""
  options := []
  answer := ""
  difficulty := none

/-- `onAnswer(selected)`: log the answer, increment the current player
score when it matches, then advance the turn. -/
def onAnswer (selected : String) (s : GameState) : GameState :=
  let questionObject := s.backupQuestions.getD s.currentQuestion defaultQuestion
  let correct := questionObject.answer
  let isCorrect := selected == correct
  let entry : LogEntry :=
    { playerIndex := s.currentPlayer
      playerName := s.playerNames.getD s.currentPlayer ""
      questionNumber := s.currentQuestion + 1
      question := questionObject.questionItem
      options := questionObject.options
      selectedAnswer := selected
      correctAnswer := correct
      isCorrect := isCorrect }
  let s := { s with answersLog := s.answersLog ++ [entry] }
  let s :=
    if isCorrect then
      { s with
        scores := s.scores.set s.currentPlayer
          (s.scores.getD s.currentPlayer 0 + 1) }
    else s
  nextTurn s

/-- JavaScript `String.prototype.trim`: strip leading and trailing
whitespace. -/
def jsTrim (s : String) : String :=
  ⟨((s.data.dropWhile Char.isWhitespace).reverse.dropWhile
      Char.isWhitespace).reverse⟩

/-- `addPlayerFromInput`: trim the input; an empty trimmed name only sets
the inline message; otherwise push the name and reset all scores to 0. -/
def addPlayerFromInput (inputValue : String) (s : GameState) : GameState :=
  let name := jsTrim inputValue
  if name = "" then { s with setupMsg := "Please enter a name." }
  else
    let playerNames := s.playerNames ++ [name]
    { s with
      playerNames := playerNames
      scores := List.replicate playerNames.length 0
      playerIndexCounter := playerNames.length + 1
      setupMsg := "Added \"" ++ name ++ "\". Enter Player " ++
        toString (playerNames.length + 1) ++ " or continue." }

/-- `removePlayerAt(index)`: splice the name out and reset all scores. -/
def removePlayerAt (index : Nat) (s : GameState) : GameState :=
  let playerNames := s.playerNames.eraseIdx index
  { s with
    playerNames := playerNames
    scores := List.replicate playerNames.length 0
    playerIndexCounter := playerNames.length + 1
    setupMsg := "Player removed." }

/-- `applyDifficultyFilter`: filter and shuffle the pool, reset the
position and the scores. -/
def applyDifficultyFilter (c : Nat → Nat) (s : GameState) : GameState :=
  let pool := filterPool s.chosenDifficulty s.backupQuestions
  let pool := shuffleArray c pool
  { s with
    backupQuestions := pool
    currentQuestion := 0
    currentPlayer := 0
    scores := List.replicate s.playerNames.length 0 }

/-- `showQuiz`: switch to the quiz section and render the first turn. -/
def showQuiz (s : GameState) : GameState :=
  renderQuestion { s with phase := .playing }

/-- One tick of the interval registered by `startTimer`: decrement the
countdown; on reaching zero, clear the timer and advance the turn. -/
def tickTimer (s : GameState) : GameState :=
  let s := { s with questionTimeLeft := s.questionTimeLeft - 1 }
  if s.questionTimeLeft = 0 then nextTurn (clearTimer s) else s

/-- The UI and timer events that drive the session. `startGame` carries
the sequence of random draws consumed by the shuffle. -/
inductive Event where
  | addPlayer (inputValue : String)
  | removePlayer (index : Nat)
  | continueToDifficulty
  | backToNames
  | setDifficulty (value : String)
  | startGame (c : Nat → Nat)
  | answer (selected : String)
  | tick

/-- Dispatch one event against the current state. Events whose controls
live in a hidden section are no-ops; a tick only happens while an
interval is live. -/
def step (e : Event) (s : GameState) : GameState :=
  match e with
  | .addPlayer v => if s.phase = .setupNames then addPlayerFromInput v s else s
  | .removePlayer i => if s.phase = .setupNames then removePlayerAt i s else s
  | .continueToDifficulty =>
    if s.phase = .setupNames then
      if s.playerNames.length < 1 then
        { s with setupMsg := "Add at least one player before continuing." }
      else { s with phase := .setupDifficulty }
    else s
  | .backToNames =>
    if s.phase = .setupDifficulty then { s with phase := .setupNames } else s
  | .setDifficulty d =>
    if s.phase = .setupDifficulty then { s with chosenDifficulty := d } else s
  | .startGame c =>
    if s.phase = .setupDifficulty then showQuiz (applyDifficultyFilter c s)
    else s
  | .answer selected =>
    if s.phase = .playing then onAnswer selected s else s
  | .tick => if 0 < s.timerLive then tickTimer s else s

/-- Run a sequence of events. -/
def run (es : List Event) (s : GameState) : GameState :=
  es.foldl (fun t e => step e t) s

/-- States reachable from the freshly loaded page. -/
inductive Reachable (qs : List Question) : GameState → Prop where
  | init : Reachable qs (initState qs)
  | next (e : Event) {s : GameState} :
      Reachable qs s → Reachable qs (step e s)

/-- Claim C8: an input whose trimmed value is empty is rejected by the
add-player operation with the inline message, and every other part of the
session state (player list, scores, indices, log, questions, phase) is
left unchanged. -/
theorem addPlayer_empty_name_rejected (s : GameState) (v : String)
    (hphase : s.phase = .setupNames) (hempty : jsTrim v = "") :
    step (.addPlayer v) s = { s with setupMsg := "Please enter a name." } := by
  simp [step, hphase, addPlayerFromInput, hempty]

theorem addPlayer_empty_name_rejected_witness :
    step (.addPlayer "   ") (initState builtinBackupQuestions) =
      { initState builtinBackupQuestions with
          setupMsg := "Please enter a name." } :=
  addPlayer_empty_name_rejected (initState builtinBackupQuestions) "   "
    rfl (by decide)

/-- Claim C9: a successful add-player operation and a remove-player
operation both rebuild the scores array as all zeros, discarding any
previously accumulated scores. -/
theorem add_remove_reset_scores (s : GameState) (v : String) (i : Nat)
    (hphase : s.phase = .setupNames) :
    (jsTrim v ≠ "" →
      (step (.addPlayer v) s).scores =
        List.replicate (step (.addPlayer v) s).playerNames.length 0) ∧
    (step (.removePlayer i) s).scores =
      List.replicate (step (.removePlayer i) s).playerNames.length 0 := by
  constructor
  · intro hv
    simp [step, hphase, addPlayerFromInput, hv]
  · simp [step, hphase, removePlayerAt]

/-- A setup state with one player holding an accumulated score. -/
def accumulatedState : GameState :=
  { initState builtinBackupQuestions with
      playerNames := ["A"], scores := [5] }

/-! ### Field bookkeeping for the turn-advancing helpers -/

@[simp] theorem clearTimer_playerNames (s : GameState) :
    (clearTimer s).playerNames = s.playerNames := by
  unfold clearTimer; split <;> rfl

@[simp] theorem clearTimer_scores (s : GameState) :
    (clearTimer s).scores = s.scores := by
  unfold clearTimer; split <;> rfl

@[simp] theorem clearTimer_currentPlayer (s : GameState) :
    (clearTimer s).currentPlayer = s.currentPlayer := by
  unfold clearTimer; split <;> rfl

@[simp] theorem clearTimer_currentQuestion (s : GameState) :
    (clearTimer s).currentQuestion = s.currentQuestion := by
  unfold clearTimer; split <;> rfl

@[simp] theorem clearTimer_backupQuestions (s : GameState) :
    (clearTimer s).backupQuestions = s.backupQuestions := by
  unfold clearTimer; split <;> rfl

@[simp] theorem clearTimer_chosenDifficulty (s : GameState) :
    (clearTimer s).chosenDifficulty = s.chosenDifficulty := by
  unfold clearTimer; split <;> rfl

@[simp] theorem clearTimer_answersLog (s : GameState) :
    (clearTimer s).answersLog = s.answersLog := by
  unfold clearTimer; split <;> rfl

@[simp] theorem clearTimer_phase (s : GameState) :
    (clearTimer s).phase = s.phase := by
  unfold clearTimer; split <;> rfl

@[simp] theorem clearTimer_timerId (s : GameState) :
    (clearTimer s).timerId = false := by
  unfold clearTimer; split
  · rfl
  · next h => simpa using h

theorem clearTimer_timerLive (s : GameState) :
    (clearTimer s).timerLive =
      if s.timerId then s.timerLive - 1 else s.timerLive := by
  unfold clearTimer; split <;> simp [*]

@[simp] theorem startTimer_playerNames (n : Nat) (s : GameState) :
    (startTimer n s).playerNames = s.playerNames := rfl

@[simp] theorem startTimer_scores (n : Nat) (s : GameState) :
    (startTimer n s).scores = s.scores := rfl

@[simp] theorem startTimer_currentPlayer (n : Nat) (s : GameState) :
    (startTimer n s).currentPlayer = s.currentPlayer := rfl

@[simp] theorem startTimer_currentQuestion (n : Nat) (s : GameState) :
    (startTimer n s).currentQuestion = s.currentQuestion := rfl

@[simp] theorem startTimer_backupQuestions (n : Nat) (s : GameState) :
    (startTimer n s).backupQuestions = s.backupQuestions := rfl

@[simp] theorem startTimer_answersLog (n : Nat) (s : GameState) :
    (startTimer n s).answersLog = s.answersLog := rfl

@[simp] theorem startTimer_phase (n : Nat) (s : GameState) :
    (startTimer n s).phase = s.phase := rfl

@[simp] theorem startTimer_timerId (n : Nat) (s : GameState) :
    (startTimer n s).timerId = true := rfl

@[simp] theorem startTimer_timerLive (n : Nat) (s : GameState) :
    (startTimer n s).timerLive = s.timerLive + 1 := rfl

@[simp] theorem endGame_playerNames (s : GameState) :
    (endGame s).playerNames = s.playerNames := by
  simp [endGame]

@[simp] theorem endGame_scores (s : GameState) :
    (endGame s).scores = s.scores := by
  simp [endGame]

@[simp] theorem endGame_currentPlayer (s : GameState) :
    (endGame s).currentPlayer = s.currentPlayer := by
  simp [endGame]

@[simp] theorem endGame_currentQuestion (s : GameState) :
    (endGame s).currentQuestion = s.currentQuestion := by
  simp [endGame]

@[simp] theorem endGame_backupQuestions (s : GameState) :
    (endGame s).backupQuestions = s.backupQuestions := by
  simp [endGame]

@[simp] theorem endGame_answersLog (s : GameState) :
    (endGame s).answersLog = s.answersLog := by
  simp [endGame]

@[simp] theorem endGame_phase (s : GameState) :
    (endGame s).phase = .results := rfl

@[simp] theorem endGame_timerId (s : GameState) :
    (endGame s).timerId = false := by
  have h := clearTimer_timerId s
  simp [endGame, h]

theorem endGame_timerLive (s : GameState) :
    (endGame s).timerLive =
      if s.timerId then s.timerLive - 1 else s.timerLive := by
  simp [endGame, clearTimer_timerLive]

@[simp] theorem renderQuestion_playerNames (s : GameState) :
    (renderQuestion s).playerNames = s.playerNames := by
  unfold renderQuestion; split <;> simp

@[simp] theorem renderQuestion_scores (s : GameState) :
    (renderQuestion s).scores = s.scores := by
  unfold renderQuestion; split <;> simp

@[simp] theorem renderQuestion_currentPlayer (s : GameState) :
    (renderQuestion s).currentPlayer = s.currentPlayer := by
  unfold renderQuestion; split <;> simp

@[simp] theorem renderQuestion_currentQuestion (s : GameState) :
    (renderQuestion s).currentQuestion = s.currentQuestion := by
  unfold renderQuestion; split <;> simp

@[simp] theorem renderQuestion_backupQuestions (s : GameState) :
    (renderQuestion s).backupQuestions = s.backupQuestions := by
  unfold renderQuestion; split <;> simp

@[simp] theorem renderQuestion_answersLog (s : GameState) :
    (renderQuestion s).answersLog = s.answersLog := by
  unfold renderQuestion; split <;> simp

theorem renderQuestion_phase (s : GameState) :
    (renderQuestion s).phase =
      if s.backupQuestions.length ≤ s.currentQuestion then Phase.results
      else s.phase := by
  unfold renderQuestion; split <;> simp [*]

theorem renderQuestion_timerId (s : GameState) :
    (renderQuestion s).timerId =
      if s.backupQuestions.length ≤ s.currentQuestion then false
      else true := by
  unfold renderQuestion; split <;> simp [*]

theorem renderQuestion_timerLive (s : GameState) :
    (renderQuestion s).timerLive =
      if s.backupQuestions.length ≤ s.currentQuestion then
        (if s.timerId then s.timerLive - 1 else s.timerLive)
      else (if s.timerId then s.timerLive - 1 else s.timerLive) + 1 := by
  unfold renderQuestion; split <;>
    simp [*, endGame_timerLive, clearTimer_timerLive]

theorem nextTurn_currentPlayer (s : GameState) :
    (nextTurn s).currentPlayer =
      if s.playerNames.length ≤ s.currentPlayer + 1 then 0
      else s.currentPlayer + 1 := by
  unfold nextTurn
  dsimp only
  split <;> split <;> simp

theorem nextTurn_currentQuestion (s : GameState) :
    (nextTurn s).currentQuestion =
      if s.playerNames.length ≤ s.currentPlayer + 1 then
        s.currentQuestion + 1
      else s.currentQuestion := by
  unfold nextTurn
  dsimp only
  split <;> split <;> simp

theorem nextTurn_phase (s : GameState) :
    (nextTurn s).phase =
      if s.backupQuestions.length ≤
          (if s.playerNames.length ≤ s.currentPlayer + 1 then
            s.currentQuestion + 1
          else s.currentQuestion) then
        Phase.results
      else s.phase := by
  unfold nextTurn
  dsimp only
  split <;> split <;> simp_all [renderQuestion_phase]

@[simp] theorem nextTurn_scores (s : GameState) :
    (nextTurn s).scores = s.scores := by
  unfold nextTurn
  dsimp only
  split <;> split <;> simp

@[simp] theorem nextTurn_answersLog (s : GameState) :
    (nextTurn s).answersLog = s.answersLog := by
  unfold nextTurn
  dsimp only
  split <;> split <;> simp

@[simp] theorem nextTurn_playerNames (s : GameState) :
    (nextTurn s).playerNames = s.playerNames := by
  unfold nextTurn
  dsimp only
  split <;> split <;> simp

@[simp] theorem nextTurn_backupQuestions (s : GameState) :
    (nextTurn s).backupQuestions = s.backupQuestions := by
  unfold nextTurn
  dsimp only
  split <;> split <;> simp

theorem add_remove_reset_scores_witness :
    ((step (.addPlayer "B") accumulatedState).scores =
      List.replicate
        (step (.addPlayer "B") accumulatedState).playerNames.length 0) ∧
    (step (.removePlayer 0) accumulatedState).scores =
      List.replicate
        (step (.removePlayer 0) accumulatedState).playerNames.length 0 :=
  ⟨(add_remove_reset_scores accumulatedState "B" 0 rfl).1 (by decide),
    (add_remove_reset_scores accumulatedState "B" 0 rfl).2⟩

/-- Claim C2 (amended): in the Playing state, the tick that brings the
countdown to zero leaves every score unchanged and advances the current
player index, the current question index and the phase exactly as a
manual submission of a wrong answer would; unlike a manual wrong answer,
which appends one entry, it appends nothing to the answer history. -/
theorem tick_expiry_vs_wrong_answer (s : GameState) (selected : String)
    (hphase : s.phase = .playing) (hlive : 0 < s.timerLive)
    (hexp : s.questionTimeLeft ≤ 1)
    (hwrong : selected ≠
      (s.backupQuestions.getD s.currentQuestion defaultQuestion).answer) :
    (step .tick s).currentPlayer = (step (.answer selected) s).currentPlayer ∧
    (step .tick s).currentQuestion =
      (step (.answer selected) s).currentQuestion ∧
    (step .tick s).phase = (step (.answer selected) s).phase ∧
    (step .tick s).scores = s.scores ∧
    (step (.answer selected) s).scores = s.scores ∧
    (step .tick s).answersLog = s.answersLog ∧
    (step (.answer selected) s).answersLog.length =
      s.answersLog.length + 1 := by
  have h0 : s.questionTimeLeft - 1 = 0 := Nat.sub_eq_zero_of_le hexp
  have hbeq : (selected ==
      (s.backupQuestions.getD s.currentQuestion defaultQuestion).answer) =
        false := beq_eq_false_iff_ne.mpr hwrong
  have htick : step .tick s =
      nextTurn (clearTimer
        { s with questionTimeLeft := s.questionTimeLeft - 1 }) := by
    simp [step, hlive, tickTimer, h0]
  have hans : step (.answer selected) s =
      nextTurn { s with answersLog := s.answersLog ++
        [{ playerIndex := s.currentPlayer
           playerName := s.playerNames.getD s.currentPlayer ""
           questionNumber := s.currentQuestion + 1
           question :=
             (s.backupQuestions.getD s.currentQuestion
               defaultQuestion).questionItem
           options :=
             (s.backupQuestions.getD s.currentQuestion
               defaultQuestion).options
           selectedAnswer := selected
           correctAnswer :=
             (s.backupQuestions.getD s.currentQuestion
               defaultQuestion).answer
           isCorrect := false }] } := by
    have hstep : step (.answer selected) s = onAnswer selected s := by
      simp [step, hphase]
    rw [hstep]
    unfold onAnswer
    simp only [hbeq]
    simp
  rw [htick, hans]
  refine ⟨?_, ?_, ?_, ?_, ?_, ?_, ?_⟩
  · rw [nextTurn_currentPlayer, nextTurn_currentPlayer]; simp
  · rw [nextTurn_currentQuestion, nextTurn_currentQuestion]; simp
  · rw [nextTurn_phase, nextTurn_phase]; simp [hphase]
  · simp
  · simp
  · simp
  · simp

/-- A concrete reachable Playing state: one player, one question, after
nine ticks of the ten-second easy-mode countdown. -/
def cexEvents : List Event :=
  [.addPlayer "A", .continueToDifficulty, .startGame (fun _ => 0)] ++
    List.replicate 9 .tick

def cexState : GameState :=
  run cexEvents (initState [exampleQuestion])

/-- Claim C2 as stated is false: at a reachable Playing state whose
countdown is about to expire, the expiry tick and a manual wrong answer
advance the player index, question index and scores identically, but
they do not advance the recorded answer history identically: the manual
wrong answer appends an entry and the expiry does not. -/
theorem tick_expiry_answersLog_differs :
    cexState.phase = .playing ∧ cexState.questionTimeLeft = 1 ∧
      (step .tick cexState).answersLog ≠
        (step (.answer "WRONG") cexState).answersLog := by
  refine ⟨by decide, by decide, by decide⟩

theorem tick_expiry_vs_wrong_answer_witness :
    (step .tick cexState).currentPlayer =
      (step (.answer "WRONG") cexState).currentPlayer ∧
    (step .tick cexState).currentQuestion =
      (step (.answer "WRONG") cexState).currentQuestion ∧
    (step .tick cexState).phase = (step (.answer "WRONG") cexState).phase ∧
    (step .tick cexState).scores = cexState.scores ∧
    (step (.answer "WRONG") cexState).scores = cexState.scores ∧
    (step .tick cexState).answersLog = cexState.answersLog ∧
    (step (.answer "WRONG") cexState).answersLog.length =
      cexState.answersLog.length + 1 :=
  tick_expiry_vs_wrong_answer cexState "WRONG" (by decide) (by decide)
    (by decide) (by decide)

/-! ### Counting turn-advancing events -/

/-- Whether an event advances the turn in state `s`: a manual answer in
the Playing state, or a tick of a live interval whose countdown reaches
zero. -/
def isTurnAdvancing (s : GameState) (e : Event) : Bool :=
  match e with
  | .answer _ => s.phase == .playing
  | .tick => decide (0 < s.timerLive) && decide (s.questionTimeLeft ≤ 1)
  | _ => false

/-- Number of turn-advancing events in `es` when run from `s`. -/
def advCount (s : GameState) : List Event → Nat
  | [] => 0
  | e :: es => (if isTurnAdvancing s e then 1 else 0) + advCount (step e s) es

@[simp] theorem run_nil (s : GameState) : run [] s = s := rfl

@[simp] theorem run_cons (e : Event) (es : List Event) (s : GameState) :
    run (e :: es) s = run es (step e s) := rfl

@[simp] theorem advCount_nil (s : GameState) : advCount s [] = 0 := rfl

theorem advCount_cons (s : GameState) (e : Event) (es : List Event) :
    advCount s (e :: es) =
      (if isTurnAdvancing s e then 1 else 0) + advCount (step e s) es := rfl

theorem step_results (e : Event) (s : GameState) (hp : s.phase = .results)
    (ht : s.timerLive = 0) : step e s = s := by
  cases e <;> simp [step, hp, ht]

theorem notAdvancing_results (e : Event) (s : GameState)
    (hp : s.phase = .results) (ht : s.timerLive = 0) :
    isTurnAdvancing s e = false := by
  cases e <;> simp [isTurnAdvancing, hp, ht]

theorem run_results (es : List Event) (s : GameState) (hp : s.phase = .results)
    (ht : s.timerLive = 0) : run es s = s ∧ advCount s es = 0 := by
  induction es with
  | nil => exact ⟨rfl, rfl⟩
  | cons e es ih =>
    have hs := step_results e s hp ht
    rw [run_cons, advCount_cons, hs, notAdvancing_results e s hp ht]
    simpa using ih

theorem nextTurn_timerId (s : GameState) :
    (nextTurn s).timerId =
      if s.backupQuestions.length ≤
          (if s.playerNames.length ≤ s.currentPlayer + 1 then
            s.currentQuestion + 1
          else s.currentQuestion) then
        false
      else true := by
  unfold nextTurn
  dsimp only
  split <;> split <;> simp_all [renderQuestion_timerId]

theorem nextTurn_timerLive (s : GameState) :
    (nextTurn s).timerLive =
      if s.backupQuestions.length ≤
          (if s.playerNames.length ≤ s.currentPlayer + 1 then
            s.currentQuestion + 1
          else s.currentQuestion) then
        (if s.timerId then s.timerLive - 1 else s.timerLive)
      else (if s.timerId then s.timerLive - 1 else s.timerLive) + 1 := by
  unfold nextTurn
  dsimp only
  split <;> split <;>
    simp_all [renderQuestion_timerLive, endGame_timerLive, clearTimer_timerLive]

theorem step_nonadvancing (e : Event) (s : GameState)
    (hp : s.phase = .playing) (hlive : s.timerLive = 1)
    (hna : isTurnAdvancing s e = false) :
    (step e s).phase = s.phase ∧
    (step e s).currentPlayer = s.currentPlayer ∧
    (step e s).currentQuestion = s.currentQuestion ∧
    (step e s).playerNames = s.playerNames ∧
    (step e s).backupQuestions = s.backupQuestions ∧
    (step e s).timerLive = s.timerLive ∧
    (step e s).timerId = s.timerId := by
  cases e with
  | answer selected => simp [isTurnAdvancing, hp] at hna
  | tick =>
    have hg : 0 < s.timerLive := by omega
    have htl : ¬ (s.questionTimeLeft ≤ 1) := by
      simp [isTurnAdvancing, hg] at hna
      omega
    have hne : ¬ (s.questionTimeLeft - 1 = 0) := by omega
    simp [step, hg, tickTimer, hne]
  | addPlayer v => simp [step, hp]
  | removePlayer i => simp [step, hp]
  | continueToDifficulty => simp [step, hp]
  | backToNames => simp [step, hp]
  | setDifficulty d => simp [step, hp]
  | startGame c => simp [step, hp]

theorem step_advancing (e : Event) (s : GameState)
    (hp : s.phase = .playing) (hlive : s.timerLive = 1) (hid : s.timerId = true)
    (ha : isTurnAdvancing s e = true) :
    (step e s).playerNames = s.playerNames ∧
    (step e s).backupQuestions = s.backupQuestions ∧
    (step e s).currentPlayer =
      (if s.playerNames.length ≤ s.currentPlayer + 1 then 0
      else s.currentPlayer + 1) ∧
    (step e s).currentQuestion =
      (if s.playerNames.length ≤ s.currentPlayer + 1 then
        s.currentQuestion + 1
      else s.currentQuestion) ∧
    (step e s).phase =
      (if s.backupQuestions.length ≤
          (if s.playerNames.length ≤ s.currentPlayer + 1 then
            s.currentQuestion + 1
          else s.currentQuestion) then
        Phase.results
      else Phase.playing) ∧
    (step e s).timerLive =
      (if s.backupQuestions.length ≤
          (if s.playerNames.length ≤ s.currentPlayer + 1 then
            s.currentQuestion + 1
          else s.currentQuestion) then
        0
      else 1) ∧
    (step e s).timerId =
      (if s.backupQuestions.length ≤
          (if s.playerNames.length ≤ s.currentPlayer + 1 then
            s.currentQuestion + 1
          else s.currentQuestion) then
        false
      else true) := by
  cases e with
  | answer selected =>
    have hstep : step (.answer selected) s = onAnswer selected s := by
      simp [step, hp]
    rw [hstep]
    unfold onAnswer
    dsimp only
    split <;>
      refine ⟨?_, ?_, ?_, ?_, ?_, ?_, ?_⟩ <;>
        simp [nextTurn_currentPlayer, nextTurn_currentQuestion, nextTurn_phase,
          nextTurn_timerId, nextTurn_timerLive, hp, hid, hlive]
  | tick =>
    have hg : 0 < s.timerLive := by omega
    have htl : s.questionTimeLeft ≤ 1 := by
      simp [isTurnAdvancing, hg] at ha
      exact ha
    have h0 : s.questionTimeLeft - 1 = 0 := by omega
    have hstep : step .tick s =
        nextTurn (clearTimer
          { s with questionTimeLeft := s.questionTimeLeft - 1 }) := by
      simp [step, hg, tickTimer, h0]
    rw [hstep]
    refine ⟨?_, ?_, ?_, ?_, ?_, ?_, ?_⟩ <;>
      simp [nextTurn_currentPlayer, nextTurn_currentQuestion, nextTurn_phase,
        nextTurn_timerId, nextTurn_timerLive, clearTimer_timerLive,
        hp, hid, hlive]
  | addPlayer v => simp [isTurnAdvancing] at ha
  | removePlayer i => simp [isTurnAdvancing] at ha
  | continueToDifficulty => simp [isTurnAdvancing] at ha
  | backToNames => simp [isTurnAdvancing] at ha
  | setDifficulty d => simp [isTurnAdvancing] at ha
  | startGame c => simp [isTurnAdvancing] at ha

theorem pos_lt_total (N M cq cp : Nat) (hN : cp < N) (hM : cq < M) :
    cq * N + cp + 1 ≤ N * M :=
  calc cq * N + cp + 1 = cq * N + (cp + 1) := by rw [Nat.add_assoc]
    _ ≤ cq * N + N := Nat.add_le_add_left (by omega) _
    _ = (cq + 1) * N := (Nat.succ_mul cq N).symm
    _ ≤ M * N := Nat.mul_le_mul_right N (by omega)
    _ = N * M := Nat.mul_comm M N

theorem turn_progress (N M : Nat) (hN1 : 1 ≤ N) (hM1 : 1 ≤ M)
    (es : List Event) :
    ∀ s : GameState, s.phase = .playing →
      s.playerNames.length = N → s.backupQuestions.length = M →
      s.currentPlayer < N → s.currentQuestion < M →
      s.timerLive = 1 → s.timerId = true →
      ((s.currentQuestion * N + s.currentPlayer + advCount s es < N * M →
        (run es s).phase = .playing ∧
        (run es s).currentPlayer =
          (s.currentQuestion * N + s.currentPlayer + advCount s es) % N ∧
        (run es s).currentQuestion =
          (s.currentQuestion * N + s.currentPlayer + advCount s es) / N) ∧
      (N * M ≤ s.currentQuestion * N + s.currentPlayer + advCount s es →
        (run es s).phase = .results ∧
        s.currentQuestion * N + s.currentPlayer + advCount s es = N * M)) := by
  induction es with
  | nil =>
    intro s hp hNs hMs hcp hcq hlive hid
    constructor
    · intro _
      refine ⟨hp, ?_, ?_⟩
      · rw [advCount_nil, run_nil, Nat.add_zero, Nat.add_comm,
          Nat.add_mul_mod_self_right, Nat.mod_eq_of_lt hcp]
      · rw [advCount_nil, run_nil, Nat.add_zero, Nat.add_comm,
          Nat.add_mul_div_right _ _ (by omega : 0 < N),
          Nat.div_eq_of_lt hcp, Nat.zero_add]
    · intro hge
      exfalso
      have hlt := pos_lt_total N M s.currentQuestion s.currentPlayer hcp hcq
      rw [advCount_nil, Nat.add_zero] at hge
      omega
  | cons e es ih =>
    intro s hp hNs hMs hcp hcq hlive hid
    by_cases hadv : isTurnAdvancing s e
    · obtain ⟨e1, e2, e3, e4, e5, e6, e7⟩ :=
        step_advancing e s hp hlive hid hadv
      by_cases hC : s.backupQuestions.length ≤
          (if s.playerNames.length ≤ s.currentPlayer + 1 then
            s.currentQuestion + 1
          else s.currentQuestion)
      · -- the advancing event ends the game
        have hwrap : s.playerNames.length ≤ s.currentPlayer + 1 := by
          by_contra hw
          rw [if_neg hw] at hC
          omega
        rw [if_pos hwrap] at e3 e4
        rw [if_pos hC] at e5 e6 e7
        have hcq1 : s.currentQuestion + 1 = M := by
          rw [if_pos hwrap] at hC
          omega
        have hcp1 : s.currentPlayer + 1 = N := by omega
        have habs := run_results es (step e s) (by rw [e5]) (by rw [e6])
        have hktotal : s.currentQuestion * N + s.currentPlayer +
            advCount s (e :: es) = N * M := by
          rw [advCount_cons, if_pos hadv, habs.2]
          have : (s.currentQuestion + 1) * N = s.currentQuestion * N + N :=
            Nat.succ_mul _ _
          calc s.currentQuestion * N + s.currentPlayer + (1 + 0)
              = s.currentQuestion * N + N := by omega
            _ = (s.currentQuestion + 1) * N := (Nat.succ_mul _ _).symm
            _ = M * N := by rw [hcq1]
            _ = N * M := Nat.mul_comm M N
        constructor
        · intro hlt
          exfalso
          omega
        · intro _
          refine ⟨?_, hktotal⟩
          rw [run_cons, habs.1, e5]
      · -- the advancing event keeps playing
        rw [if_neg hC] at e5 e6 e7
        have hcp2 : (step e s).currentPlayer < N := by
          rw [e3, e1] at *
          split <;> omega
        have hcq2 : (step e s).currentQuestion < M := by
          rw [e4]
          rw [hMs] at hC
          split at hC
          · rw [if_pos (by assumption)]
            omega
          · rw [if_neg (by assumption)]
            omega
        have ihs := ih (step e s) e5 (by rw [e1, hNs]) (by rw [e2, hMs])
          hcp2 hcq2 e6 e7
        have hk : (step e s).currentQuestion * N + (step e s).currentPlayer =
            s.currentQuestion * N + s.currentPlayer + 1 := by
          rw [e3, e4]
          by_cases hw : s.playerNames.length ≤ s.currentPlayer + 1
          · rw [if_pos hw, if_pos hw]
            have h1 : (s.currentQuestion + 1) * N =
                s.currentQuestion * N + N := Nat.succ_mul _ _
            have h2 : s.currentPlayer + 1 = N := by omega
            omega
          · rw [if_neg hw, if_neg hw]
            omega
        have hcount : advCount s (e :: es) = 1 + advCount (step e s) es := by
          rw [advCount_cons, if_pos hadv]
        rw [run_cons, hcount]
        constructor
        · intro hlt
          have := (ihs.1 (by omega))
          refine ⟨this.1, ?_, ?_⟩
          · rw [this.2.1]
            congr 1
            omega
          · rw [this.2.2]
            congr 1
            omega
        · intro hge
          have := (ihs.2 (by omega))
          exact ⟨this.1, by omega⟩
    · -- a non-advancing event: nothing relevant changes
      obtain ⟨n1, n2, n3, n4, n5, n6, n7⟩ :=
        step_nonadvancing e s hp hlive (by simpa using hadv)
      have ihs := ih (step e s) (by rw [n1, hp]) (by rw [n4, hNs])
        (by rw [n5, hMs]) (by rw [n2]; exact hcp) (by rw [n3]; exact hcq)
        (by rw [n6, hlive]) (by rw [n7, hid])
      have hcount : advCount s (e :: es) = advCount (step e s) es := by
        rw [advCount_cons, if_neg (by simpa using hadv), Nat.zero_add]
      rw [run_cons, hcount, n2, n3] at *
      rw [n2, n3] at ihs
      exact ihs

/-- Claim C3: for a game entered with `N ≥ 1` players and `M ≥ 1`
questions (Playing state at player 0, question 0), any event sequence
with fewer than `N*M` turn-advancing events (manual answers or expiry
ticks) leaves the session in the Playing state, no sequence accumulates
more than `N*M` turn-advancing events, and once the count reaches `N*M`
the session is in the Results state: the `N*M`-th turn-advancing event
transitions the session to Results. -/
theorem turns_to_results (s : GameState) (es : List Event) (N M : Nat)
    (hp : s.phase = .playing) (hcp : s.currentPlayer = 0)
    (hcq : s.currentQuestion = 0) (hN : s.playerNames.length = N)
    (hM : s.backupQuestions.length = M) (hN1 : 1 ≤ N) (hM1 : 1 ≤ M)
    (hlive : s.timerLive = 1) (hid : s.timerId = true) :
    (advCount s es < N * M → (run es s).phase = .playing) ∧
    (N * M ≤ advCount s es →
      (run es s).phase = .results ∧ advCount s es = N * M) := by
  have h := turn_progress N M hN1 hM1 es s hp hN hM (by omega) (by omega)
    hlive hid
  rw [hcp, hcq] at h
  simp only [Nat.zero_mul, Nat.zero_add, Nat.add_zero] at h
  exact ⟨fun hlt => (h.1 hlt).1, fun hge => h.2 hge⟩

theorem turns_to_results_witness :
    (run [Event.tick] cexState).phase = .results ∧
      advCount cexState [Event.tick] = 1 * 1 :=
  (turns_to_results cexState [Event.tick] 1 1 (by decide) (by decide)
    (by decide) (by decide) (by decide) (by decide) (by decide) (by decide)
    (by decide)).2 (by decide)

/-! ### The reachable-state invariant -/

/-- The inductive invariant of the session: scores stay parallel to
players, the question store is never empty, and each UI phase constrains
the position and timer bookkeeping. -/
structure Inv (s : GameState) : Prop where
  scores_len : s.scores.length = s.playerNames.length
  questions_ne : s.backupQuestions ≠ []
  names_inv : s.phase = .setupNames →
    s.currentPlayer = 0 ∧ s.currentQuestion = 0 ∧
      s.timerLive = 0 ∧ s.timerId = false
  diff_inv : s.phase = .setupDifficulty →
    s.currentPlayer = 0 ∧ s.currentQuestion = 0 ∧
      1 ≤ s.playerNames.length ∧ s.timerLive = 0 ∧ s.timerId = false
  play_inv : s.phase = .playing →
    s.currentPlayer < s.playerNames.length ∧
      s.currentQuestion < s.backupQuestions.length ∧
      1 ≤ s.playerNames.length ∧ s.timerLive = 1 ∧ s.timerId = true
  res_inv : s.phase = .results →
    s.currentPlayer = 0 ∧ s.currentQuestion = s.backupQuestions.length ∧
      1 ≤ s.playerNames.length ∧ s.timerLive = 0 ∧ s.timerId = false

theorem Inv_of_fields_eq {s t : GameState} (h : Inv s)
    (e1 : t.playerNames = s.playerNames) (e2 : t.scores = s.scores)
    (e3 : t.currentPlayer = s.currentPlayer)
    (e4 : t.currentQuestion = s.currentQuestion)
    (e5 : t.backupQuestions = s.backupQuestions) (e6 : t.phase = s.phase)
    (e7 : t.timerLive = s.timerLive) (e8 : t.timerId = s.timerId) : Inv t := by
  obtain ⟨h1, h2, h3, h4, h5, h6⟩ := h
  constructor
  · rw [e2, e1]; exact h1
  · rw [e5]; exact h2
  · rw [e6, e3, e4, e7, e8]; exact h3
  · rw [e6, e3, e4, e1, e7, e8]; exact h4
  · rw [e6, e3, e1, e4, e5, e7, e8]; exact h5
  · rw [e6, e3, e4, e5, e1, e7, e8]; exact h6

theorem Inv_nextTurn (s : GameState) (hp : s.phase = .playing)
    (h1 : s.scores.length = s.playerNames.length)
    (h2 : s.backupQuestions ≠ [])
    (hL : 1 ≤ s.playerNames.length)
    (hcp : s.currentPlayer < s.playerNames.length)
    (hcq : s.currentQuestion < s.backupQuestions.length)
    (htimer : s.timerLive = if s.timerId then 1 else 0) :
    Inv (nextTurn s) := by
  by_cases hC : s.backupQuestions.length ≤
      (if s.playerNames.length ≤ s.currentPlayer + 1 then
        s.currentQuestion + 1
      else s.currentQuestion)
  · -- the turn ends the game
    have hwrap : s.playerNames.length ≤ s.currentPlayer + 1 := by
      by_contra hw
      rw [if_neg hw] at hC
      omega
    rw [if_pos hwrap] at hC
    constructor
    · simpa using h1
    · simpa using h2
    · rw [nextTurn_phase, if_pos (by rw [if_pos hwrap]; exact hC)]
      intro hq
      exact absurd hq (by decide)
    · rw [nextTurn_phase, if_pos (by rw [if_pos hwrap]; exact hC)]
      intro hq
      exact absurd hq (by decide)
    · rw [nextTurn_phase, if_pos (by rw [if_pos hwrap]; exact hC)]
      intro hq
      exact absurd hq (by decide)
    · intro _
      refine ⟨?_, ?_, ?_, ?_, ?_⟩
      · rw [nextTurn_currentPlayer, if_pos hwrap]
      · rw [nextTurn_currentQuestion, if_pos hwrap, nextTurn_backupQuestions]
        omega
      · simpa using hL
      · rw [nextTurn_timerLive, if_pos (by rw [if_pos hwrap]; exact hC)]
        cases hb : s.timerId <;> simp [hb] at htimer <;> simp [htimer]
      · rw [nextTurn_timerId, if_pos (by rw [if_pos hwrap]; exact hC)]
  · -- the turn continues
    constructor
    · simpa using h1
    · simpa using h2
    · rw [nextTurn_phase, if_neg hC, hp]
      intro hq
      exact absurd hq (by decide)
    · rw [nextTurn_phase, if_neg hC, hp]
      intro hq
      exact absurd hq (by decide)
    · intro _
      refine ⟨?_, ?_, ?_, ?_, ?_⟩
      · rw [nextTurn_currentPlayer, nextTurn_playerNames]
        split <;> omega
      · rw [nextTurn_currentQuestion, nextTurn_backupQuestions]
        by_cases hw : s.playerNames.length ≤ s.currentPlayer + 1
        · rw [if_pos hw]
          rw [if_pos hw] at hC
          omega
        · rw [if_neg hw]
          exact hcq
      · simpa using hL
      · rw [nextTurn_timerLive, if_neg hC]
        cases hb : s.timerId <;> simp [hb] at htimer <;> simp [htimer]
      · rw [nextTurn_timerId, if_neg hC]
    · rw [nextTurn_phase, if_neg hC, hp]
      intro hq
      exact absurd hq (by decide)

theorem Inv_renderQuestion_fresh (t : GameState) (hp : t.phase = .playing)
    (h1 : t.scores.length = t.playerNames.length)
    (h2 : t.backupQuestions ≠ [])
    (hL : 1 ≤ t.playerNames.length)
    (hcp : t.currentPlayer < t.playerNames.length)
    (hcq : t.currentQuestion < t.backupQuestions.length)
    (htimer : t.timerLive = if t.timerId then 1 else 0) :
    Inv (renderQuestion t) := by
  have hnle : ¬ t.backupQuestions.length ≤ t.currentQuestion := by omega
  constructor
  · simpa using h1
  · simpa using h2
  · rw [renderQuestion_phase, if_neg hnle, hp]
    intro hq
    exact absurd hq (by decide)
  · rw [renderQuestion_phase, if_neg hnle, hp]
    intro hq
    exact absurd hq (by decide)
  · intro _
    refine ⟨by simpa using hcp, by simpa using hcq, by simpa using hL, ?_, ?_⟩
    · rw [renderQuestion_timerLive, if_neg hnle]
      cases hb : t.timerId <;> simp [hb] at htimer <;> simp [htimer]
    · rw [renderQuestion_timerId, if_neg hnle]
  · rw [renderQuestion_phase, if_neg hnle, hp]
    intro hq
    exact absurd hq (by decide)

theorem filterPool_ne_nil (d : String) (qs : List Question) (h : qs ≠ []) :
    filterPool d qs ≠ [] := by
  have key : ∀ pool : List Question,
      (if pool.isEmpty then qs else pool) ≠ [] := by
    intro pool
    by_cases hp : pool.isEmpty
    · simpa [hp] using h
    · have hne : pool ≠ [] := by simpa [List.isEmpty_iff] using hp
      simpa [hp] using hne
  exact key _

theorem shuffleArray_length (c : Nat → Nat) (l : List α) :
    (shuffleArray c l).length = l.length :=
  (shuffleArray_perm c l).length_eq

theorem shuffleArray_ne_nil (c : Nat → Nat) (l : List α) (h : l ≠ []) :
    shuffleArray c l ≠ [] := by
  intro he
  apply h
  have := shuffleArray_length c l
  rw [he] at this
  exact List.length_eq_zero.mp this.symm

theorem Inv_initState (qs : List Question) (h : qs ≠ []) :
    Inv (initState qs) := by
  constructor <;> simp [initState, h]

theorem Inv_step (e : Event) (s : GameState) (h : Inv s) : Inv (step e s) := by
  obtain ⟨h1, h2, h3, h4, h5, h6⟩ := h
  cases e with
  | addPlayer v =>
    by_cases hp : s.phase = .setupNames
    · simp only [step, if_pos hp]
      unfold addPlayerFromInput
      dsimp only
      split
      · exact Inv_of_fields_eq ⟨h1, h2, h3, h4, h5, h6⟩
          rfl rfl rfl rfl rfl rfl rfl rfl
      · obtain ⟨c1, c2, c3, c4⟩ := h3 hp
        constructor
        · simp
        · simpa using h2
        · intro _
          exact ⟨c1, c2, c3, c4⟩
        · intro hq
          exact absurd (hp.symm.trans hq) (by decide)
        · intro hq
          exact absurd (hp.symm.trans hq) (by decide)
        · intro hq
          exact absurd (hp.symm.trans hq) (by decide)
    · simp only [step, if_neg hp]
      exact ⟨h1, h2, h3, h4, h5, h6⟩
  | removePlayer i =>
    by_cases hp : s.phase = .setupNames
    · simp only [step, if_pos hp]
      unfold removePlayerAt
      dsimp only
      obtain ⟨c1, c2, c3, c4⟩ := h3 hp
      constructor
      · simp
      · simpa using h2
      · intro _
        exact ⟨c1, c2, c3, c4⟩
      · intro hq
        exact absurd (hp.symm.trans hq) (by decide)
      · intro hq
        exact absurd (hp.symm.trans hq) (by decide)
      · intro hq
        exact absurd (hp.symm.trans hq) (by decide)
    · simp only [step, if_neg hp]
      exact ⟨h1, h2, h3, h4, h5, h6⟩
  | continueToDifficulty =>
    by_cases hp : s.phase = .setupNames
    · simp only [step, if_pos hp]
      split
      · exact Inv_of_fields_eq ⟨h1, h2, h3, h4, h5, h6⟩
          rfl rfl rfl rfl rfl rfl rfl rfl
      · next hge =>
        obtain ⟨c1, c2, c3, c4⟩ := h3 hp
        constructor
        · exact h1
        · exact h2
        · intro hq
          exact Phase.noConfusion hq
        · intro _
          exact ⟨c1, c2, Nat.not_lt.mp hge, c3, c4⟩
        · intro hq
          exact Phase.noConfusion hq
        · intro hq
          exact Phase.noConfusion hq
    · simp only [step, if_neg hp]
      exact ⟨h1, h2, h3, h4, h5, h6⟩
  | backToNames =>
    by_cases hp : s.phase = .setupDifficulty
    · simp only [step, if_pos hp]
      obtain ⟨c1, c2, _, c4, c5⟩ := h4 hp
      constructor
      · exact h1
      · exact h2
      · intro _
        exact ⟨c1, c2, c4, c5⟩
      · intro hq
        exact Phase.noConfusion hq
      · intro hq
        exact Phase.noConfusion hq
      · intro hq
        exact Phase.noConfusion hq
    · simp only [step, if_neg hp]
      exact ⟨h1, h2, h3, h4, h5, h6⟩
  | setDifficulty d =>
    by_cases hp : s.phase = .setupDifficulty
    · simp only [step, if_pos hp]
      exact Inv_of_fields_eq ⟨h1, h2, h3, h4, h5, h6⟩
        rfl rfl rfl rfl rfl rfl rfl rfl
    · simp only [step, if_neg hp]
      exact ⟨h1, h2, h3, h4, h5, h6⟩
  | startGame c =>
    by_cases hp : s.phase = .setupDifficulty
    · simp only [step, if_pos hp]
      obtain ⟨c1, c2, c3, c4, c5⟩ := h4 hp
      unfold showQuiz applyDifficultyFilter
      dsimp only
      apply Inv_renderQuestion_fresh
      · rfl
      · simp
      · simpa using
          shuffleArray_ne_nil c _ (filterPool_ne_nil s.chosenDifficulty _ h2)
      · simpa using c3
      · simp only []
        have hne :
            shuffleArray c (filterPool s.chosenDifficulty s.backupQuestions)
              ≠ [] :=
          shuffleArray_ne_nil c _ (filterPool_ne_nil s.chosenDifficulty _ h2)
        simpa using c3
      · have hne :
            shuffleArray c (filterPool s.chosenDifficulty s.backupQuestions)
              ≠ [] :=
          shuffleArray_ne_nil c _ (filterPool_ne_nil s.chosenDifficulty _ h2)
        have : 0 <
            (shuffleArray c
              (filterPool s.chosenDifficulty s.backupQuestions)).length :=
          List.length_pos.mpr hne
        simpa using this
      · simp [c4, c5]
    · simp only [step, if_neg hp]
      exact ⟨h1, h2, h3, h4, h5, h6⟩
  | answer selected =>
    by_cases hp : s.phase = .playing
    · simp only [step, if_pos hp]
      obtain ⟨c1, c2, c3, c4, c5⟩ := h5 hp
      unfold onAnswer
      dsimp only
      split
      · apply Inv_nextTurn <;> simp [hp, h1, h2, c1, c2, c3, c4, c5]
      · apply Inv_nextTurn <;> simp [hp, h1, h2, c1, c2, c3, c4, c5]
    · simp only [step, if_neg hp]
      exact ⟨h1, h2, h3, h4, h5, h6⟩
  | tick =>
    by_cases hg : 0 < s.timerLive
    · have hp : s.phase = .playing := by
        cases hph : s.phase with
        | setupNames => obtain ⟨_, _, cl, _⟩ := h3 hph; omega
        | setupDifficulty => obtain ⟨_, _, _, cl, _⟩ := h4 hph; omega
        | playing => rfl
        | results => obtain ⟨_, _, _, cl, _⟩ := h6 hph; omega
      obtain ⟨c1, c2, c3, c4, c5⟩ := h5 hp
      simp only [step, if_pos hg]
      unfold tickTimer
      dsimp only
      split
      · apply Inv_nextTurn <;>
          simp [hp, h1, h2, c1, c2, c3, c4, c5, clearTimer_timerLive]
      · exact Inv_of_fields_eq ⟨h1, h2, h3, h4, h5, h6⟩
          rfl rfl rfl rfl rfl rfl rfl rfl
    · simp only [step, if_neg hg]
      exact ⟨h1, h2, h3, h4, h5, h6⟩

theorem Reachable_Inv (qs : List Question) (hqs : qs ≠ []) (s : GameState)
    (h : Reachable qs s) : Inv s := by
  induction h with
  | init => exact Inv_initState qs hqs
  | next e hr ih => exact Inv_step e _ ih

/-- Claim C1 as stated is false at the initial state, which is reachable
by the empty event sequence: with zero players, the current player index
0 does not satisfy `currentPlayer < playerNames.length`. -/
theorem initial_state_violates_player_bound :
    Reachable builtinBackupQuestions (initState builtinBackupQuestions) ∧
      ¬ ((initState builtinBackupQuestions).currentPlayer <
          (initState builtinBackupQuestions).playerNames.length) :=
  ⟨Reachable.init, by decide⟩

/-- Claim C1 (amended): in every reachable state, the scores array has
the same length as the players array; the current player index satisfies
`0 ≤ currentPlayer < playerNames.length` whenever at least one player
exists, and is 0 when no player exists (in particular the bound fails in
the initial state with zero players); and the current question index
satisfies `0 ≤ currentQuestion ≤ M`, reaching past the last question
index (`M ≤ currentQuestion`) exactly at game end. -/
theorem reachable_session_invariant (qs : List Question) (hqs : qs ≠ [])
    (s : GameState) (h : Reachable qs s) :
    s.scores.length = s.playerNames.length ∧
    (0 < s.playerNames.length →
      s.currentPlayer < s.playerNames.length) ∧
    (s.playerNames.length = 0 → s.currentPlayer = 0) ∧
    s.currentQuestion ≤ s.backupQuestions.length ∧
    (s.backupQuestions.length ≤ s.currentQuestion ↔ s.phase = .results) := by
  obtain ⟨h1, h2, h3, h4, h5, h6⟩ := Reachable_Inv qs hqs s h
  have hQ : 0 < s.backupQuestions.length := List.length_pos.mpr h2
  cases hph : s.phase with
  | setupNames =>
    obtain ⟨c1, c2, _, _⟩ := h3 hph
    refine ⟨h1, fun _ => by omega, fun _ => c1, by omega, ?_⟩
    constructor
    · intro hc
      exfalso
      omega
    · intro hc
      exact absurd hc (by decide)
  | setupDifficulty =>
    obtain ⟨c1, c2, c3, _, _⟩ := h4 hph
    refine ⟨h1, fun _ => by omega, fun hz => by omega, by omega, ?_⟩
    constructor
    · intro hc
      exfalso
      omega
    · intro hc
      exact absurd hc (by decide)
  | playing =>
    obtain ⟨c1, c2, c3, _, _⟩ := h5 hph
    refine ⟨h1, fun _ => c1, fun hz => by omega, by omega, ?_⟩
    constructor
    · intro hc
      exfalso
      omega
    · intro hc
      exact absurd hc (by decide)
  | results =>
    obtain ⟨c1, c2, c3, _, _⟩ := h6 hph
    refine ⟨h1, fun _ => by omega, fun hz => by omega, by omega, ?_⟩
    constructor
    · intro _
      rfl
    · intro _
      omega

theorem reachable_session_invariant_witness :
    (initState builtinBackupQuestions).scores.length =
      (initState builtinBackupQuestions).playerNames.length ∧
    (0 < (initState builtinBackupQuestions).playerNames.length →
      (initState builtinBackupQuestions).currentPlayer <
        (initState builtinBackupQuestions).playerNames.length) ∧
    ((initState builtinBackupQuestions).playerNames.length = 0 →
      (initState builtinBackupQuestions).currentPlayer = 0) ∧
    (initState builtinBackupQuestions).currentQuestion ≤
      (initState builtinBackupQuestions).backupQuestions.length ∧
    ((initState builtinBackupQuestions).backupQuestions.length ≤
        (initState builtinBackupQuestions).currentQuestion ↔
      (initState builtinBackupQuestions).phase = .results) :=
  reachable_session_invariant builtinBackupQuestions (by decide) _
    Reachable.init

/-- Claim C7: in every reachable state at most one countdown interval is
live: a question render clears the previous interval before starting its
own, and ending the game clears the outstanding interval, so exactly one
interval is live in the Playing state and none in any other phase. -/
theorem at_most_one_timer (qs : List Question) (hqs : qs ≠ [])
    (s : GameState) (h : Reachable qs s) :
    s.timerLive ≤ 1 ∧
    (s.phase = .playing → s.timerLive = 1) ∧
    (s.phase ≠ .playing → s.timerLive = 0) := by
  obtain ⟨h1, h2, h3, h4, h5, h6⟩ := Reachable_Inv qs hqs s h
  cases hph : s.phase with
  | setupNames =>
    obtain ⟨_, _, c, _⟩ := h3 hph
    exact ⟨by omega, fun hc => absurd hc (by decide), fun _ => c⟩
  | setupDifficulty =>
    obtain ⟨_, _, _, c, _⟩ := h4 hph
    exact ⟨by omega, fun hc => absurd hc (by decide), fun _ => c⟩
  | playing =>
    obtain ⟨_, _, _, c, _⟩ := h5 hph
    exact ⟨by omega, fun _ => c, fun hc => absurd rfl hc⟩
  | results =>
    obtain ⟨_, _, _, c, _⟩ := h6 hph
    exact ⟨by omega, fun hc => absurd hc (by decide), fun _ => c⟩

theorem at_most_one_timer_witness :
    (initState builtinBackupQuestions).timerLive ≤ 1 ∧
    ((initState builtinBackupQuestions).phase = .playing →
      (initState builtinBackupQuestions).timerLive = 1) ∧
    ((initState builtinBackupQuestions).phase ≠ .playing →
      (initState builtinBackupQuestions).timerLive = 0) :=
  at_most_one_timer builtinBackupQuestions (by decide) _ Reachable.init

end QuizBattle
